import Mathlib

/-!
Verification development for the label-assignment core of the MMD
object-detection repository.

Shallow embedding conventions:
* float tensors are modelled with exact rationals (`ℚ`);
* a `(N, 4)` box tensor is a `List Box`;
* `torch.sqrt` (whose float value never matters for the properties below)
  is threaded through as an explicit function parameter `sqrtQ`;
* in-place tensor index assignment with repeated indices is modelled as a
  sequential left fold (the later write wins), matching the CPU semantics
  the source relies on (it moves the cost matrices to CPU on purpose);
* Python exceptions raised during construction are modelled with
  `Except String`.
-/

namespace MMD

/-- Axis-aligned box in corner `(x1, y1, x2, y2)` format, one row of a float
box tensor, with exact rational coordinates. -/
structure Box where
  x1 : ℚ
  y1 : ℚ
  x2 : ℚ
  y2 : ℚ
deriving DecidableEq, Repr

instance : Inhabited Box := ⟨⟨0, 0, 0, 0⟩⟩

/-- Embeds `bbox_xyxy_to_cxcywh` (mmdet/core/bbox/transforms.py): corner
format to center `(cx, cy, w, h)` format. -/
def bbox_xyxy_to_cxcywh (b : Box) : ℚ × ℚ × ℚ × ℚ :=
  ((b.x1 + b.x2) / 2, (b.y1 + b.y2) / 2, b.x2 - b.x1, b.y2 - b.y1)

/-- Embeds one entry of `torch.cdist(..., p=1)` between the `cxcywh` forms of
two boxes: the L1 distance in center-size space. -/
def l1CxcywhDist (a b : Box) : ℚ :=
  let p := bbox_xyxy_to_cxcywh a
  let q := bbox_xyxy_to_cxcywh b
  |p.1 - q.1| + |p.2.1 - q.2.1| + |p.2.2.1 - q.2.2.1| + |p.2.2.2 - q.2.2.2|

/-- Modelled from the spec: the `BboxOverlaps2D` IoU calculator
(`mmdet/core/bbox/iou_calculators`, not among the provided source files).
Per spec section 4.2 it computes pairwise Intersection-over-Union between two
boxes: intersection area over union area, zero for non-overlapping boxes. -/
def bboxOverlap (a b : Box) : ℚ :=
  let iw := max 0 (min a.x2 b.x2 - max a.x1 b.x1)
  let ih := max 0 (min a.y2 b.y2 - max a.y1 b.y1)
  let inter := iw * ih
  let areaA := (a.x2 - a.x1) * (a.y2 - a.y1)
  let areaB := (b.x2 - b.x1) * (b.y2 - b.y1)
  let uni := areaA + areaB - inter
  if uni = 0 then 0 else inter / uni

/-- Strict ordering on `(index, value)` pairs used to model `torch.topk`
with `largest=False`: smaller value first, ties broken by smaller index. -/
def rankLt (a b : ℕ × ℚ) : Prop :=
  a.2 < b.2 ∨ (a.2 = b.2 ∧ a.1 ≤ b.1)

instance : DecidableRel rankLt := fun a b =>
  inferInstanceAs (Decidable (a.2 < b.2 ∨ (a.2 = b.2 ∧ a.1 ≤ b.1)))

/-- Embeds `torch.topk(col, k, largest=False)[1]` on one column of a cost
matrix: the indices of the `k` smallest entries, in increasing value order,
ties broken by smaller index (deterministic CPU behaviour; the source moves
the cost matrices to CPU before calling `topk`). -/
def topkSmallest (k : ℕ) (col : List ℚ) : List ℕ :=
  ((col.enum.insertionSort rankLt).map Prod.fst).take k

/-- Embeds `AssignResult` as returned by `UniformAssigner.assign`:
`gt_inds` uses `0` for background, `-1` for ignore and `g + 1` for a match
with ground truth `g`. -/
structure AssignResult where
  num_gts : ℕ
  gt_inds : List ℤ
  max_overlaps : Option (List ℚ)
  labels : Option (List ℤ)
deriving Repr

/-- Embeds the `UniformAssigner` configuration
(mmdet/core/bbox/assigners/uniform_assigner.py).  The IoU calculator is a
constructor-injected dependency in the source (`build_iou_calculator`), so it
is a function field here; `bboxOverlap` models its default. -/
structure UniformAssigner where
  pos_ignore_thr : ℚ
  neg_ignore_thr : ℚ
  match_times : ℕ
  iou_calculator : Box → Box → ℚ

namespace UniformAssigner

/-- Embeds one column of `torch.cdist(bbox_xyxy_to_cxcywh(boxes),
bbox_xyxy_to_cxcywh(gt_bboxes), p=1)`: the distances from every box to one
fixed ground-truth box. -/
def costColumn (boxes : List Box) (gt : Box) : List ℚ :=
  boxes.map (fun b => l1CxcywhDist b gt)

/-- Embeds `torch.cat((index, index1), dim=1).reshape(-1)`: the flattened
sequence of selected candidate indices.  Row `t` of the concatenated matrix
holds, in order, the rank-`t` decoded-prediction match of every ground truth
followed by the rank-`t` raw-anchor match of every ground truth, and
`reshape(-1)` walks the rows in order. -/
def selectedIndexes (self : UniformAssigner) (bbox_pred anchor gt_bboxes : List Box) :
    List ℕ :=
  (List.range self.match_times).flatMap (fun t =>
    gt_bboxes.map (fun g => (topkSmallest self.match_times (costColumn bbox_pred g)).getD t 0)
      ++ gt_bboxes.map (fun g => (topkSmallest self.match_times (costColumn anchor g)).getD t 0))

/-- Embeds `torch.arange(0, num_gts).repeat(match_times * 2)`: the
ground-truth index aligned with each entry of `selectedIndexes`. -/
def posGtIndex (self : UniformAssigner) (num_gts : ℕ) : List ℕ :=
  (List.range (self.match_times * 2)).flatMap (fun _ => List.range num_gts)

/-- Embeds the entry `anchor_overlaps[i, g]` of the anchor/ground-truth IoU
matrix. -/
def anchorOverlap (self : UniformAssigner) (anchor gt_bboxes : List Box) (i g : ℕ) : ℚ :=
  self.iou_calculator (anchor.getD i default) (gt_bboxes.getD g default)

/-- Maximum of a rational list, `0` for the empty list (the source only takes
maxima of non-empty tensors). -/
def listMaxD : List ℚ → ℚ
  | [] => 0
  | x :: xs => xs.foldl max x

/-- Embeds `pred_overlaps.max(dim=1)`: for one predicted box, its maximum IoU
over all ground-truth boxes. -/
def predMaxOverlap (self : UniformAssigner) (gt_bboxes : List Box) (p : Box) : ℚ :=
  listMaxD (gt_bboxes.map (fun g => self.iou_calculator p g))

/-- Embeds `anchor_overlaps.max(dim=0)`: for each ground truth, the maximum
IoU over all anchors (a per-ground-truth vector). -/
def anchorMaxOverlaps (self : UniformAssigner) (anchor gt_bboxes : List Box) : List ℚ :=
  gt_bboxes.map (fun g => listMaxD (anchor.map (fun a => self.iou_calculator a g)))

/-- Embeds steps `assigned_gt_inds = zeros; assigned_gt_inds[ignore_idx] = -1`
where `ignore_idx = pred_max_overlaps > neg_ignore_thr`: the state of
`assigned_gt_inds` right before the positive writes. -/
def negIgnoreBase (self : UniformAssigner) (bbox_pred gt_bboxes : List Box) : List ℤ :=
  bbox_pred.map (fun p => if self.neg_ignore_thr < self.predMaxOverlap gt_bboxes p then -1 else 0)

/-- Embeds `pos_gt_index_with_ignore`: the value written for each selected
pair, `-1` when the pair's anchor-to-ground-truth IoU is below
`pos_ignore_thr` and the 1-based ground-truth index otherwise. -/
def writeValues (self : UniformAssigner) (bbox_pred anchor gt_bboxes : List Box) : List ℤ :=
  ((self.selectedIndexes bbox_pred anchor gt_bboxes).zip
      (self.posGtIndex gt_bboxes.length)).map (fun p =>
    if self.anchorOverlap anchor gt_bboxes p.1 p.2 < self.pos_ignore_thr then -1
    else (p.2 : ℤ) + 1)

/-- The sequence of scatter writes `assigned_gt_inds[indexes] =
pos_gt_index_with_ignore` as (candidate index, written value) pairs, in the
flattened processing order. -/
def writes (self : UniformAssigner) (bbox_pred anchor gt_bboxes : List Box) :
    List (ℕ × ℤ) :=
  (self.selectedIndexes bbox_pred anchor gt_bboxes).zip
    (self.writeValues bbox_pred anchor gt_bboxes)

/-- Embeds `UniformAssigner.assign`
(mmdet/core/bbox/assigners/uniform_assigner.py, lines 33-139).  The scatter
assignment with repeated indices is modelled as a sequential fold where the
later write wins. -/
def assign (self : UniformAssigner) (bbox_pred anchor gt_bboxes : List Box)
    (gt_labels : Option (List ℤ)) : AssignResult :=
  let num_gts := gt_bboxes.length
  let num_bboxes := bbox_pred.length
  if num_gts = 0 ∨ num_bboxes = 0 then
    { num_gts := num_gts
      gt_inds := List.replicate num_bboxes 0
      max_overlaps := none
      labels := some (List.replicate num_bboxes (-1)) }
  else
    let gt_inds := (self.writes bbox_pred anchor gt_bboxes).foldl
      (fun acc p => acc.set p.1 p.2) (self.negIgnoreBase bbox_pred gt_bboxes)
    { num_gts := num_gts
      gt_inds := gt_inds
      max_overlaps := some (self.anchorMaxOverlaps anchor gt_bboxes)
      labels := match gt_labels with
        | none => none
        | some gl => some (gt_inds.map (fun v => if 0 < v then gl.getD (v - 1).toNat (-1) else -1)) }

end UniformAssigner

/-! ### General list lemmas used by the assignment proofs -/

/-- Length of a `flatMap` all of whose blocks have the same length `n`. -/
theorem length_flatMap_const {α β : Type} (l : List α) (f : α → List β) (n : ℕ)
    (h : ∀ x ∈ l, (f x).length = n) : (l.flatMap f).length = l.length * n := by
  induction l with
  | nil => simp
  | cons a t ih =>
    have ht : ∀ x ∈ t, (f x).length = n := fun x hx => h x (List.mem_cons_of_mem _ hx)
    simp only [List.flatMap_cons, List.length_append, h a (List.mem_cons_self _ _),
      ih ht, List.length_cons]
    ring

/-- Element lookup in a `flatMap` all of whose blocks have length `n`. -/
theorem getElem?_flatMap_const {α β : Type} (l : List α) (f : α → List β) (n : ℕ) :
    ∀ k a : ℕ, (∀ x ∈ l, (f x).length = n) → ∀ hk : k < l.length, a < n →
      (l.flatMap f)[k * n + a]? = (f (l.get ⟨k, hk⟩))[a]? := by
  induction l with
  | nil => intro k a h hk ha; simp at hk
  | cons x t ih =>
    intro k a h hk ha
    have ht : ∀ y ∈ t, (f y).length = n := fun y hy => h y (List.mem_cons_of_mem _ hy)
    cases k with
    | zero =>
      have hx : 0 * n + a < (f x).length := by
        rw [h x (List.mem_cons_self _ _)]; simpa using ha
      rw [List.flatMap_cons, List.getElem?_append_left hx]
      simp
    | succ k =>
      have hk' : k < t.length := by simpa using hk
      have hlen : (f x).length ≤ (k + 1) * n + a := by
        rw [h x (List.mem_cons_self _ _)]
        calc n ≤ (k + 1) * n := Nat.le_mul_of_pos_left n (Nat.succ_pos k)
        _ ≤ (k + 1) * n + a := Nat.le_add_right _ _
      have harith : (k + 1) * n + a - (f x).length = k * n + a := by
        rw [h x (List.mem_cons_self _ _)]
        have hdist : (k + 1) * n = k * n + n := by ring
        omega
      rw [List.flatMap_cons, List.getElem?_append_right hlen, harith, ih k a ht hk' ha]
      simp

/-- A fold of in-place index writes preserves the list length. -/
theorem length_foldl_set (ws : List (ℕ × ℤ)) (init : List ℤ) :
    (ws.foldl (fun acc p => acc.set p.1 p.2) init).length = init.length := by
  induction ws generalizing init with
  | nil => rfl
  | cons p t ih => rw [List.foldl_cons, ih]; simp

/-- Sequential in-place writes resolve conflicts in favour of the last write:
the final value at `c` is the value of the last write targeting `c`, and the
initial value when no write targets `c`. -/
theorem foldl_set_getLast (ws : List (ℕ × ℤ)) (init : List ℤ) (c : ℕ)
    (hc : c < init.length) :
    (ws.foldl (fun acc p => acc.set p.1 p.2) init)[c]? =
      ((ws.filter (fun p => p.1 == c)).getLast?).elim init[c]? (fun q => some q.2) := by
  induction ws generalizing init with
  | nil => simp
  | cons p t ih =>
    have hlen : c < (init.set p.1 p.2).length := by simpa using hc
    rw [List.foldl_cons, ih _ hlen]
    by_cases hpc : p.1 = c
    · have hbeq : (p.1 == c) = true := by simpa using hpc
      have hset : (init.set p.1 p.2)[c]? = some p.2 := by
        subst hpc; exact List.getElem?_set_self hc
      simp only [List.filter_cons, hbeq, if_true]
      cases hft : t.filter (fun q => q.1 == c) with
      | nil => simp [hft, hset]
      | cons q r =>
        rw [List.getLast?_cons_cons]
        cases hgl : (q :: r).getLast? with
        | none => simp [List.getLast?_eq_none_iff] at hgl
        | some v => simp [hgl]
    · have hbeq : (p.1 == c) = false := by simpa using hpc
      have hset : (init.set p.1 p.2)[c]? = init[c]? := List.getElem?_set_ne hpc
      simp only [List.filter_cons, hbeq, hset]
      simp

namespace UniformAssigner

/-- Every index selected by the `topk` model is a valid candidate index. -/
theorem topkSmallest_lt_length (k : ℕ) (col : List ℚ) :
    ∀ i ∈ topkSmallest k col, i < col.length := by
  intro i hi
  have hi' : i ∈ (col.enum.insertionSort rankLt).map Prod.fst :=
    List.mem_of_mem_take hi
  obtain ⟨p, hp, rfl⟩ := List.mem_map.1 hi'
  have hp' : p ∈ col.enum := (List.perm_insertionSort rankLt col.enum).mem_iff.1 hp
  have := List.mem_enum_iff_getElem?.1 hp'
  exact (List.getElem?_eq_some.1 this).1

/-- The `topk` model returns exactly `k` selections when at least `k`
candidates exist. -/
theorem topkSmallest_length (k : ℕ) (col : List ℚ) (h : k ≤ col.length) :
    (topkSmallest k col).length = k := by
  simp [topkSmallest, List.length_insertionSort, h]

/-- The flattened selected-index sequence has one entry per (rank, source,
ground truth) triple. -/
theorem selectedIndexes_length (self : UniformAssigner) (bp anc gts : List Box) :
    (self.selectedIndexes bp anc gts).length = self.match_times * 2 * gts.length := by
  unfold selectedIndexes
  rw [length_flatMap_const _ _ (2 * gts.length)]
  · simp; ring
  · intro t _
    simp [Nat.two_mul]

/-- The ground-truth index sequence has the same length as the selected-index
sequence. -/
theorem posGtIndex_length (self : UniformAssigner) (m : ℕ) :
    (self.posGtIndex m).length = self.match_times * 2 * m := by
  unfold posGtIndex
  rw [length_flatMap_const _ _ m (by simp)]
  simp

/-- The write-value sequence has one entry per (rank, source, ground truth)
triple. -/
theorem writeValues_length (self : UniformAssigner) (bp anc gts : List Box) :
    (self.writeValues bp anc gts).length = self.match_times * 2 * gts.length := by
  simp [writeValues, selectedIndexes_length, posGtIndex_length]

/-- The write sequence has one entry per (rank, source, ground truth)
triple. -/
theorem writes_length (self : UniformAssigner) (bp anc gts : List Box) :
    (self.writes bp anc gts).length = self.match_times * 2 * gts.length := by
  simp [writes, selectedIndexes_length, writeValues_length]

end UniformAssigner

/-! ### Claim C4: degenerate inputs -/

/-- C4: `UniformAssigner.assign` recovers from both degenerate inputs rather
than failing: with zero ground truths every candidate is assigned background
(`gt_index` 0) and no candidate is ignored, and with zero candidates a
well-formed empty result (empty index and label arrays) is returned. -/
theorem uniform_assign_degenerate (self : UniformAssigner)
    (bbox_pred anchor gts : List Box) (gl : Option (List ℤ)) :
    ((self.assign bbox_pred anchor [] gl).num_gts = 0
      ∧ (self.assign bbox_pred anchor [] gl).gt_inds = List.replicate bbox_pred.length 0
      ∧ (-1 : ℤ) ∉ (self.assign bbox_pred anchor [] gl).gt_inds)
    ∧ ((self.assign [] anchor gts gl).gt_inds = []
      ∧ (self.assign [] anchor gts gl).labels = some []
      ∧ (self.assign [] anchor gts gl).max_overlaps = none) := by
  refine ⟨⟨?_, ?_, ?_⟩, ?_, ?_, ?_⟩ <;>
    simp [UniformAssigner.assign, List.mem_replicate]

/-! ### Claim C8: number of candidate entries considered -/

/-- C8: the flattened positive-candidate selection considers exactly
`match_times * 2 * num_gts` raw index entries before deduplication by
overwrite (`4 * 2 * 2 = 16` for `match_times = 4` and 2 ground truths):
`match_times` nearest candidates per ground truth under L1 center-size
distance, computed independently for decoded predictions and raw anchors and
concatenated, each per-column `topk` selection contributing exactly
`match_times` entries. -/
theorem uniform_assign_considered_count (self : UniformAssigner)
    (bp anc gts : List Box)
    (h1 : self.match_times ≤ bp.length) (h2 : self.match_times ≤ anc.length) :
    (self.selectedIndexes bp anc gts).length = self.match_times * 2 * gts.length
    ∧ (self.writes bp anc gts).length = self.match_times * 2 * gts.length
    ∧ (∀ g ∈ gts,
        (topkSmallest self.match_times
          (UniformAssigner.costColumn bp g)).length = self.match_times)
    ∧ (∀ g ∈ gts,
        (topkSmallest self.match_times
          (UniformAssigner.costColumn anc g)).length = self.match_times) := by
  refine ⟨UniformAssigner.selectedIndexes_length self bp anc gts,
    UniformAssigner.writes_length self bp anc gts, ?_, ?_⟩
  · intro g _
    exact UniformAssigner.topkSmallest_length _ _
      (by simpa [UniformAssigner.costColumn] using h1)
  · intro g _
    exact UniformAssigner.topkSmallest_length _ _
      (by simpa [UniformAssigner.costColumn] using h2)

/-- Concrete assigner configuration (default thresholds `pos_ignore_thr =
0.15`, `neg_ignore_thr = 0.75`, `match_times = 4`, default IoU mode). -/
def c8assigner : MMD.UniformAssigner := ⟨3/20, 3/4, 4, bboxOverlap⟩

/-- Four concrete candidate boxes. -/
def c8preds : List Box := [⟨0, 0, 10, 10⟩, ⟨20, 0, 30, 10⟩, ⟨0, 20, 10, 30⟩, ⟨20, 20, 30, 30⟩]

/-- Two concrete ground-truth boxes. -/
def c8gts : List Box := [⟨0, 0, 8, 8⟩, ⟨20, 0, 28, 8⟩]

/-- Witness for C8 at `match_times = 4` and 2 ground truths: exactly 16
candidate-index entries are considered. -/
theorem uniform_assign_considered_count_witness :
    (c8assigner.selectedIndexes c8preds c8preds c8gts).length = 16 := by
  have h := (uniform_assign_considered_count c8assigner c8preds c8preds c8gts
    (by simp [c8assigner, c8preds]) (by simp [c8assigner, c8preds])).1
  simpa [c8assigner, c8gts] using h

/-! ### Claim C3: positive-ignore rule on selected pairs -/

/-- C3: in the write sequence of `UniformAssigner.assign`, every selected
(candidate, ground-truth) pair whose anchor-to-ground-truth IoU is below
`pos_ignore_thr` is recorded as ignore (`-1`) instead of positive, and every
other selected pair is recorded with its positive 1-based ground-truth
index. -/
theorem uniform_assign_pos_ignore (self : UniformAssigner) (bp anc gts : List Box)
    (j : ℕ) (hj : j < (self.writes bp anc gts).length) :
    (self.writes bp anc gts)[j]? =
      some ((self.selectedIndexes bp anc gts).getD j 0,
        if self.anchorOverlap anc gts ((self.selectedIndexes bp anc gts).getD j 0)
            ((self.posGtIndex gts.length).getD j 0) < self.pos_ignore_thr
        then -1
        else ((self.posGtIndex gts.length).getD j 0 : ℤ) + 1) := by
  rw [UniformAssigner.writes_length] at hj
  have hj1 : j < (self.selectedIndexes bp anc gts).length := by
    rw [UniformAssigner.selectedIndexes_length]; exact hj
  have hj2 : j < (self.posGtIndex gts.length).length := by
    rw [UniformAssigner.posGtIndex_length]; exact hj
  have hs : (self.selectedIndexes bp anc gts)[j]? =
      some ((self.selectedIndexes bp anc gts).get ⟨j, hj1⟩) := by
    rw [List.get_eq_getElem]
    exact List.getElem?_eq_getElem hj1
  have hp : (self.posGtIndex gts.length)[j]? =
      some ((self.posGtIndex gts.length).get ⟨j, hj2⟩) := by
    rw [List.get_eq_getElem]
    exact List.getElem?_eq_getElem hj2
  have hz : ((self.selectedIndexes bp anc gts).zip (self.posGtIndex gts.length))[j]? =
      some ((self.selectedIndexes bp anc gts).get ⟨j, hj1⟩,
        (self.posGtIndex gts.length).get ⟨j, hj2⟩) :=
    List.getElem?_zip_eq_some.2 ⟨hs, hp⟩
  have hv : (self.writeValues bp anc gts)[j]? =
      some (if self.anchorOverlap anc gts
            ((self.selectedIndexes bp anc gts).get ⟨j, hj1⟩)
            ((self.posGtIndex gts.length).get ⟨j, hj2⟩) < self.pos_ignore_thr
        then -1
        else (((self.posGtIndex gts.length).get ⟨j, hj2⟩ : ℕ) : ℤ) + 1) := by
    rw [UniformAssigner.writeValues, List.getElem?_map, hz]
    rfl
  have hw : (self.writes bp anc gts)[j]? =
      some ((self.selectedIndexes bp anc gts).get ⟨j, hj1⟩,
        if self.anchorOverlap anc gts
            ((self.selectedIndexes bp anc gts).get ⟨j, hj1⟩)
            ((self.posGtIndex gts.length).get ⟨j, hj2⟩) < self.pos_ignore_thr
        then -1
        else (((self.posGtIndex gts.length).get ⟨j, hj2⟩ : ℕ) : ℤ) + 1) :=
    List.getElem?_zip_eq_some.2 ⟨hs, hv⟩
  rw [hw]
  have hgd1 : (self.selectedIndexes bp anc gts).getD j 0 =
      (self.selectedIndexes bp anc gts).get ⟨j, hj1⟩ := by
    rw [List.getD_eq_getElem?_getD, hs]; rfl
  have hgd2 : (self.posGtIndex gts.length).getD j 0 =
      (self.posGtIndex gts.length).get ⟨j, hj2⟩ := by
    rw [List.getD_eq_getElem?_getD, hp]; rfl
  rw [hgd1, hgd2]

/-- Witness input for C3: the first write of the concrete C8 configuration
is recorded per the positive-ignore rule. -/
theorem uniform_assign_pos_ignore_witness :
    (c8assigner.writes c8preds c8preds c8gts)[0]? =
      some ((c8assigner.selectedIndexes c8preds c8preds c8gts).getD 0 0,
        if c8assigner.anchorOverlap c8preds c8gts
            ((c8assigner.selectedIndexes c8preds c8preds c8gts).getD 0 0)
            ((c8assigner.posGtIndex c8gts.length).getD 0 0) < c8assigner.pos_ignore_thr
        then -1
        else ((c8assigner.posGtIndex c8gts.length).getD 0 0 : ℤ) + 1) :=
  uniform_assign_pos_ignore c8assigner c8preds c8preds c8gts 0
    (by rw [UniformAssigner.writes_length]; simp [c8assigner, c8gts])

/-! ### Claim C1: conflict resolution by write order -/

/-- C1 (amended): conflicts in `UniformAssigner.assign` are resolved by
write order.  First every candidate whose maximum prediction-to-ground-truth
IoU exceeds `neg_ignore_thr` is set to ignore, and only afterwards are the
selected pairs written, the later write winning; the write sequence is
ordered by nearest-neighbour rank, and within each rank the
decoded-prediction matches (in increasing ground-truth index) are processed
before the raw-anchor matches (in increasing ground-truth index). -/
theorem uniform_assign_conflict_resolution (self : UniformAssigner)
    (bp anc gts : List Box) (gl : Option (List ℤ))
    (hg : gts ≠ []) (hb : bp ≠ []) (_hm : self.match_times ≤ bp.length)
    (_hal : anc.length = bp.length) :
    (∀ t, t < self.match_times → ∀ g, ∀ hgl : g < gts.length,
      (self.selectedIndexes bp anc gts)[t * (2 * gts.length) + g]? =
        some ((topkSmallest self.match_times
          (UniformAssigner.costColumn bp (gts.get ⟨g, hgl⟩))).getD t 0)
      ∧ (self.selectedIndexes bp anc gts)[t * (2 * gts.length) + gts.length + g]? =
        some ((topkSmallest self.match_times
          (UniformAssigner.costColumn anc (gts.get ⟨g, hgl⟩))).getD t 0)
      ∧ (self.posGtIndex gts.length)[t * (2 * gts.length) + g]? = some g
      ∧ (self.posGtIndex gts.length)[t * (2 * gts.length) + gts.length + g]? = some g)
    ∧ (∀ c, ∀ hc : c < bp.length,
      (self.assign bp anc gts gl).gt_inds[c]? =
        (((self.writes bp anc gts).filter (fun q => q.1 == c)).getLast?).elim
          (some (if self.neg_ignore_thr < self.predMaxOverlap gts (bp.get ⟨c, hc⟩) then -1 else 0))
          (fun q => some q.2)) := by
  constructor
  · intro t ht g hgl
    have hblocks : ∀ x ∈ List.range self.match_times,
        ((fun t => gts.map (fun g =>
            (topkSmallest self.match_times (UniformAssigner.costColumn bp g)).getD t 0)
          ++ gts.map (fun g =>
            (topkSmallest self.match_times (UniformAssigner.costColumn anc g)).getD t 0)) x).length
          = 2 * gts.length := by
      intro x _
      simp [Nat.two_mul]
    have hconst : ∀ x ∈ List.range (self.match_times * 2),
        ((fun _ : ℕ => List.range gts.length) x).length = gts.length := by
      intro x _
      simp
    have ht' : t < (List.range self.match_times).length := by simpa using ht
    refine ⟨?_, ?_, ?_, ?_⟩
    · rw [UniformAssigner.selectedIndexes,
        getElem?_flatMap_const (List.range self.match_times) _ (2 * gts.length) t g
          hblocks ht' (by omega)]
      simp only [List.get_eq_getElem, List.getElem_range]
      rw [List.getElem?_append_left (by simpa using hgl)]
      simp [List.getElem?_eq_getElem hgl, List.get_eq_getElem]
    · have harith : t * (2 * gts.length) + gts.length + g =
          t * (2 * gts.length) + (gts.length + g) := by omega
      rw [UniformAssigner.selectedIndexes, harith,
        getElem?_flatMap_const (List.range self.match_times) _ (2 * gts.length) t
          (gts.length + g) hblocks ht' (by omega)]
      simp only [List.get_eq_getElem, List.getElem_range]
      rw [List.getElem?_append_right (by simp)]
      simp [List.getElem?_eq_getElem hgl, List.get_eq_getElem]
    · have harith : t * (2 * gts.length) + g = (2 * t) * gts.length + g := by ring
      have hk : 2 * t < (List.range (self.match_times * 2)).length := by
        simp; omega
      rw [UniformAssigner.posGtIndex, harith,
        getElem?_flatMap_const (List.range (self.match_times * 2)) _ gts.length (2 * t) g
          hconst hk hgl]
      simp [List.getElem?_range hgl]
    · have harith : t * (2 * gts.length) + gts.length + g = (2 * t + 1) * gts.length + g := by
        ring
      have hk : 2 * t + 1 < (List.range (self.match_times * 2)).length := by
        simp; omega
      rw [UniformAssigner.posGtIndex, harith,
        getElem?_flatMap_const (List.range (self.match_times * 2)) _ gts.length (2 * t + 1) g
          hconst hk hgl]
      simp [List.getElem?_range hgl]
  · intro c hc
    have hcond : ¬(gts.length = 0 ∨ bp.length = 0) := by
      simp only [List.length_eq_zero]
      exact fun h => h.elim hg hb
    have hbaselen : c < (self.negIgnoreBase bp gts).length := by
      simpa [UniformAssigner.negIgnoreBase] using hc
    have hbase : (self.negIgnoreBase bp gts)[c]? =
        some (if self.neg_ignore_thr < self.predMaxOverlap gts (bp.get ⟨c, hc⟩) then -1 else 0) := by
      simp [UniformAssigner.negIgnoreBase, List.getElem?_eq_getElem hc,
        List.get_eq_getElem]
    have hassign : (self.assign bp anc gts gl).gt_inds =
        (self.writes bp anc gts).foldl (fun acc p => acc.set p.1 p.2)
          (self.negIgnoreBase bp gts) := by
      simp only [UniformAssigner.assign]
      rw [if_neg hcond]
    rw [hassign, foldl_set_getLast _ _ c hbaselen, hbase]

/-- Concrete assigner for the C1 order analysis: `match_times = 1`,
`pos_ignore_thr = 0` (no positive-ignore), `neg_ignore_thr = 1`
(no negative-ignore). -/
def cxassigner : MMD.UniformAssigner := ⟨0, 1, 1, bboxOverlap⟩

/-- Two concrete ground truths. -/
def cxgts : List Box := [⟨0, 0, 10, 10⟩, ⟨20, 0, 30, 10⟩]

/-- Decoded predictions: prediction 0 coincides with ground truth 0,
prediction 1 with ground truth 1. -/
def cxpreds : List Box := [⟨0, 0, 10, 10⟩, ⟨20, 0, 30, 10⟩]

/-- Raw anchors: anchor 0 coincides with ground truth 1, anchor 1 with
ground truth 0 (the reverse pairing of the predictions). -/
def cxanchors : List Box := [⟨20, 0, 30, 10⟩, ⟨0, 0, 10, 10⟩]

/-- Assignment writes in the order the claim words it (comparison definition
for claim C1, built from the spec's words, not from the source): all
raw-anchor matches first, then all decoded-prediction matches, each group in
increasing ground-truth index, with the same per-pair written values as the
source. -/
def specOrderWrites (self : UniformAssigner) (bp anc gts : List Box) : List (ℕ × ℤ) :=
  ((gts.enum.flatMap (fun p =>
      (topkSmallest self.match_times (UniformAssigner.costColumn anc p.2)).map
        (fun i => (i, p.1))))
    ++ (gts.enum.flatMap (fun p =>
      (topkSmallest self.match_times (UniformAssigner.costColumn bp p.2)).map
        (fun i => (i, p.1))))).map
    (fun q => (q.1,
      if self.anchorOverlap anc gts q.1 q.2 < self.pos_ignore_thr then -1
      else (q.2 : ℤ) + 1))

/-- Final assignment array produced by the claim's write order (comparison
definition for claim C1). -/
def specOrderAssign (self : UniformAssigner) (bp anc gts : List Box) : List ℤ :=
  (specOrderWrites self bp anc gts).foldl (fun acc p => acc.set p.1 p.2)
    (self.negIgnoreBase bp gts)

set_option maxHeartbeats 1600000 in
/-- C1 counterexample: at a concrete input with two ground truths where the
prediction and anchor nearest-neighbour pairings are reversed, the code
(decoded-prediction writes first, raw-anchor writes second) assigns
candidate 0 to ground truth 2 and candidate 1 to ground truth 1, while the
claimed order (raw-anchor writes first) would assign the opposite; the
claimed processing order therefore contradicts the code. -/
theorem uniform_assign_order_counterexample :
    (cxassigner.assign cxpreds cxanchors cxgts none).gt_inds = [2, 1]
    ∧ specOrderAssign cxassigner cxpreds cxanchors cxgts = [1, 2] := by
  have hcp0 : UniformAssigner.costColumn cxpreds ⟨0, 0, 10, 10⟩ = [0, 20] := by
    norm_num [UniformAssigner.costColumn, l1CxcywhDist, bbox_xyxy_to_cxcywh, cxpreds]
  have hcp1 : UniformAssigner.costColumn cxpreds ⟨20, 0, 30, 10⟩ = [20, 0] := by
    norm_num [UniformAssigner.costColumn, l1CxcywhDist, bbox_xyxy_to_cxcywh, cxpreds]
  have hca0 : UniformAssigner.costColumn cxanchors ⟨0, 0, 10, 10⟩ = [20, 0] := by
    norm_num [UniformAssigner.costColumn, l1CxcywhDist, bbox_xyxy_to_cxcywh, cxanchors]
  have hca1 : UniformAssigner.costColumn cxanchors ⟨20, 0, 30, 10⟩ = [0, 20] := by
    norm_num [UniformAssigner.costColumn, l1CxcywhDist, bbox_xyxy_to_cxcywh, cxanchors]
  have ht1 : topkSmallest 1 [(0 : ℚ), 20] = [0] := by
    norm_num [topkSmallest, List.insertionSort, List.orderedInsert, rankLt,
      List.enum, List.enumFrom]
  have ht2 : topkSmallest 1 [(20 : ℚ), 0] = [1] := by
    norm_num [topkSmallest, List.insertionSort, List.orderedInsert, rankLt,
      List.enum, List.enumFrom]
  have hiou11 : bboxOverlap ⟨0, 0, 10, 10⟩ ⟨0, 0, 10, 10⟩ = 1 := by
    norm_num [bboxOverlap, min_def, max_def]
  have hiou22 : bboxOverlap ⟨20, 0, 30, 10⟩ ⟨20, 0, 30, 10⟩ = 1 := by
    norm_num [bboxOverlap, min_def, max_def]
  have hiou12 : bboxOverlap ⟨0, 0, 10, 10⟩ ⟨20, 0, 30, 10⟩ = 0 := by
    norm_num [bboxOverlap, min_def, max_def]
  have hiou21 : bboxOverlap ⟨20, 0, 30, 10⟩ ⟨0, 0, 10, 10⟩ = 0 := by
    norm_num [bboxOverlap, min_def, max_def]
  have hsel : cxassigner.selectedIndexes cxpreds cxanchors cxgts = [0, 1, 1, 0] := by
    simp [UniformAssigner.selectedIndexes, cxassigner, cxgts, hcp0, hcp1, hca0, hca1,
      ht1, ht2, List.range_succ]
  have hpos : cxassigner.posGtIndex cxgts.length = [0, 1, 0, 1] := by
    simp [UniformAssigner.posGtIndex, cxassigner, cxgts, List.range_succ]
  have hwv : cxassigner.writeValues cxpreds cxanchors cxgts = [1, 2, 1, 2] := by
    simp only [UniformAssigner.writeValues]
    rw [hsel, hpos]
    norm_num [UniformAssigner.anchorOverlap, cxassigner, cxanchors, cxgts,
      hiou11, hiou22, hiou12, hiou21, List.getElem_cons_zero, List.getElem_cons_succ]
    exact le_of_eq hiou12.symm
  have hbase : cxassigner.negIgnoreBase cxpreds cxgts = [0, 0] := by
    norm_num [UniformAssigner.negIgnoreBase, UniformAssigner.predMaxOverlap,
      UniformAssigner.listMaxD, cxassigner, cxpreds, cxgts, hiou11, hiou12, hiou21,
      hiou22, max_def]
  have henum : cxgts.enum = [(0, (⟨0, 0, 10, 10⟩ : Box)), (1, ⟨20, 0, 30, 10⟩)] := rfl
  constructor
  · simp only [UniformAssigner.assign]
    rw [if_neg (by norm_num [cxgts, cxpreds])]
    simp only [UniformAssigner.writes]
    rw [hsel, hwv, hbase]
    decide
  · have hswrites : specOrderWrites cxassigner cxpreds cxanchors cxgts =
        [(1, 1), (0, 2), (0, 1), (1, 2)] := by
      simp only [specOrderWrites]
      rw [henum]
      simp only [List.flatMap_cons, List.flatMap_nil, List.append_nil]
      have hmt : cxassigner.match_times = 1 := rfl
      rw [hca0, hca1, hcp0, hcp1, hmt, ht1, ht2]
      norm_num [UniformAssigner.anchorOverlap, cxassigner, cxanchors, cxgts,
        hiou11, hiou22, hiou12, hiou21, List.getElem_cons_zero, List.getElem_cons_succ]
      exact le_of_eq hiou12.symm
    simp only [specOrderAssign]
    rw [hswrites, hbase]
    decide

/-- Witness for C1 at the concrete input: the write-order and
conflict-resolution characterization instantiated at rank 0, ground truth 0
and candidate 0. -/
theorem uniform_assign_conflict_resolution_witness :
    (cxassigner.assign cxpreds cxanchors cxgts none).gt_inds[0]? =
      (((cxassigner.writes cxpreds cxanchors cxgts).filter
          (fun q => q.1 == 0)).getLast?).elim
        (some (if cxassigner.neg_ignore_thr <
            cxassigner.predMaxOverlap cxgts (cxpreds.get ⟨0, by simp [cxpreds]⟩) then -1 else 0))
        (fun q => some q.2) :=
  (uniform_assign_conflict_resolution cxassigner cxpreds cxanchors cxgts none
    (by simp [cxgts]) (by simp [cxpreds]) (by simp [cxassigner, cxpreds])
    (by simp [cxanchors, cxpreds])).2 0 (by simp [cxpreds])

/-! ### Claim C9: shape of the returned max-overlap array -/

/-- Concrete assigner with `match_times = 1` for the shape evaluation. -/
def c9assigner : MMD.UniformAssigner := ⟨3/20, 3/4, 1, bboxOverlap⟩

/-- Three concrete candidate boxes. -/
def c9preds : List Box := [⟨0, 0, 10, 10⟩, ⟨1, 0, 11, 10⟩, ⟨2, 0, 12, 10⟩]

/-- One concrete ground-truth box. -/
def c9gts : List Box := [⟨0, 0, 10, 10⟩]

/-- C9 (code-bug evidence): on an input with 3 candidates and 1 ground
truth, `UniformAssigner.assign` returns a `max_overlaps` array of length 1 —
one entry per ground truth (`anchor_overlaps.max(dim=0)`), not one entry per
candidate as the `AssignResult` contract requires; the source marks the
discrepancy itself with a TODO comment next to the constructor call. -/
theorem uniform_assign_max_overlaps_shape :
    ((c9assigner.assign c9preds c9preds c9gts none).max_overlaps).map List.length = some 1
    ∧ (c9assigner.assign c9preds c9preds c9gts none).gt_inds.length = 3 := by
  constructor
  · simp [UniformAssigner.assign, UniformAssigner.anchorMaxOverlaps, c9preds, c9gts]
  · simp [UniformAssigner.assign, c9preds, c9gts, length_foldl_set,
      UniformAssigner.negIgnoreBase]

/-! ### AnchorGenerator (mmdet/core/anchor/anchor_generator.py) -/

/-- Length of a `flatMap` of per-element maps over a fixed second list. -/
theorem length_flatMap_map {α β γ : Type} (l1 : List α) (l2 : List β) (f : α → β → γ) :
    (l1.flatMap (fun u => l2.map (f u))).length = l1.length * l2.length := by
  rw [length_flatMap_const _ _ l2.length (by intro x _; simp)]

/-- Constructor arguments of `AnchorGenerator`, with the source's default
values. -/
structure AnchorGeneratorArgs where
  strides : List ℚ
  ratios : List ℚ
  scales : Option (List ℚ) := none
  base_sizes : Option (List ℚ) := none
  scale_major : Bool := true
  octave_base_scale : Option ℚ := none
  scales_per_octave : Option ℕ := none
  centers : Option (List (ℚ × ℚ)) := none
  center_offset : ℚ := 0

namespace AnchorGenerator

/-- Embeds the `self.centers[i]` access that `gen_base_anchors` performs for
every feature level at the end of `__init__`: a supplied `centers` list
shorter than the number of levels raises `IndexError`. -/
def centersAccessOk (centers : Option (List (ℚ × ℚ))) (num_levels : ℕ) :
    Except String Unit :=
  match centers with
  | some cs =>
    if cs.length < num_levels then .error "IndexError: centers[i] out of range"
    else .ok ()
  | none => .ok ()

/-- Embeds the validation performed by `AnchorGenerator.__init__`
(lines 46-92), in source order: (1) `centers` may only be supplied together
with `center_offset = 0`; (2) `center_offset` must lie in `[0, 1]`;
(3) an explicitly given `base_sizes` must match `strides` in length (the
default is `strides` itself); (4) exactly one of `scales` or the full pair
`(octave_base_scale, scales_per_octave)` must be given (a Python boolean
xor); (5) `gen_base_anchors`, called last in `__init__`, indexes any
supplied `centers` list once per level. -/
def initCheck (a : AnchorGeneratorArgs) : Except String Unit :=
  if a.center_offset ≠ 0 ∧ a.centers ≠ none then
    .error "center cannot be set when center_offset is nonzero"
  else if ¬(0 ≤ a.center_offset ∧ a.center_offset ≤ 1) then
    .error "center_offset should be in range [0, 1]"
  else if (a.base_sizes.getD a.strides).length ≠ a.strides.length then
    .error "The number of strides should be the same as base sizes"
  else if (a.octave_base_scale ≠ none ∧ a.scales_per_octave ≠ none) ↔ a.scales ≠ none then
    .error "scales and octave_base_scale with scales_per_octave cannot be set at the same time"
  else if a.scales ≠ none then
    centersAccessOk a.centers (a.base_sizes.getD a.strides).length
  else if a.octave_base_scale ≠ none ∧ a.scales_per_octave ≠ none then
    centersAccessOk a.centers (a.base_sizes.getD a.strides).length
  else
    .error "Either scales or octave_base_scale with scales_per_octave should be set"

/-- Embeds `AnchorGenerator.gen_single_level_base_anchors` (lines 112-142).
`sqrtQ` abstracts `torch.sqrt` (applied to the aspect ratios); its value
never matters for the counting and ordering properties below. -/
def gen_single_level_base_anchors (sqrtQ : ℚ → ℚ) (scale_major : Bool)
    (center_offset : ℚ) (base_size : ℚ) (scales ratios : List ℚ)
    (center : Option (ℚ × ℚ)) : List Box :=
  let w := base_size
  let h := base_size
  let x_center := match center with | none => center_offset * w | some c => c.1
  let y_center := match center with | none => center_offset * h | some c => c.2
  let h_ratios := ratios.map sqrtQ
  let w_ratios := h_ratios.map (fun r => 1 / r)
  let ws := if scale_major then
      w_ratios.flatMap (fun wr => scales.map (fun s => w * wr * s))
    else
      scales.flatMap (fun s => w_ratios.map (fun wr => w * s * wr))
  let hs := if scale_major then
      h_ratios.flatMap (fun hr => scales.map (fun s => h * hr * s))
    else
      scales.flatMap (fun s => h_ratios.map (fun hr => h * s * hr))
  (ws.zip hs).map (fun p =>
    ⟨x_center - 1/2 * p.1, y_center - 1/2 * p.2,
     x_center + 1/2 * p.1, y_center + 1/2 * p.2⟩)

/-- Embeds `AnchorGenerator._meshgrid` (row-major, x varying fastest)
composed with `single_level_grid_anchors` (lines 144-197): shift every base
anchor by every grid offset and flatten with the base-anchor index varying
fastest. -/
def single_level_grid_anchors (base_anchors : List Box) (feat_h feat_w : ℕ)
    (stride : ℚ) : List Box :=
  let shift_x := (List.range feat_w).map (fun v : ℕ => (v : ℚ) * stride)
  let shift_y := (List.range feat_h).map (fun v : ℕ => (v : ℚ) * stride)
  let shift_xx := (List.range feat_h).flatMap (fun _ => shift_x)
  let shift_yy := shift_y.flatMap (fun v => List.replicate feat_w v)
  let shifts := shift_xx.zip shift_yy
  shifts.flatMap (fun s => base_anchors.map (fun b =>
    ⟨b.x1 + s.1, b.y1 + s.2, b.x2 + s.1, b.y2 + s.2⟩))

end AnchorGenerator

/-! ### Claim C5: anchor counts and row-major enumeration -/

/-- C5: each level's base-anchor set has exactly
`num_ratios * num_scales` boxes, and the grid anchors of a
`(feat_h, feat_w)` level have exactly `feat_h * feat_w * num_base_anchors`
boxes, enumerated row-major with x varying fastest: the anchor for grid cell
`(y, x)` and base-anchor index `a` sits at flat index
`(y * feat_w + x) * num_base_anchors + a` and is the base anchor shifted by
`(x * stride, y * stride)`. -/
theorem anchor_generator_counts (sqrtQ : ℚ → ℚ) (sm : Bool) (co bsz : ℚ)
    (scales ratios : List ℚ) (center : Option (ℚ × ℚ))
    (base_anchors : List Box) (feat_h feat_w : ℕ) (stride : ℚ) :
    (AnchorGenerator.gen_single_level_base_anchors sqrtQ sm co bsz scales ratios
        center).length = ratios.length * scales.length
    ∧ (AnchorGenerator.single_level_grid_anchors base_anchors feat_h feat_w
        stride).length = feat_h * feat_w * base_anchors.length
    ∧ ∀ y x a, y < feat_h → x < feat_w → ∀ ha : a < base_anchors.length,
        (AnchorGenerator.single_level_grid_anchors base_anchors feat_h feat_w
            stride)[(y * feat_w + x) * base_anchors.length + a]? =
          some ⟨(base_anchors.get ⟨a, ha⟩).x1 + (x : ℚ) * stride,
                (base_anchors.get ⟨a, ha⟩).y1 + (y : ℚ) * stride,
                (base_anchors.get ⟨a, ha⟩).x2 + (x : ℚ) * stride,
                (base_anchors.get ⟨a, ha⟩).y2 + (y : ℚ) * stride⟩ := by
  refine ⟨?_, ?_, ?_⟩
  · cases sm with
    | false =>
      simp only [AnchorGenerator.gen_single_level_base_anchors]
      rw [if_neg (by simp), if_neg (by simp), List.length_map, List.length_zip,
        length_flatMap_const _ _ ratios.length (by intro s _; simp),
        length_flatMap_const _ _ ratios.length (by intro s _; simp)]
      simp [Nat.mul_comm]
    | true =>
      simp only [AnchorGenerator.gen_single_level_base_anchors]
      rw [if_pos trivial, if_pos trivial, List.length_map, List.length_zip,
        length_flatMap_const _ _ scales.length (by intro s _; simp),
        length_flatMap_const _ _ scales.length (by intro s _; simp)]
      simp
  · simp only [AnchorGenerator.single_level_grid_anchors]
    rw [length_flatMap_const _ _ base_anchors.length (by intro s _; simp)]
    rw [List.length_zip]
    rw [length_flatMap_const _ _ feat_w (by intro s _; simp),
      length_flatMap_const _ _ feat_w (by intro s _; simp)]
    simp [Nat.mul_assoc]
  · intro y x a hy hx ha
    simp only [AnchorGenerator.single_level_grid_anchors]
    have hxxget : ((List.range feat_h).flatMap
        (fun _ => (List.range feat_w).map (fun v : ℕ => (v : ℚ) * stride)))[
          y * feat_w + x]? = some ((x : ℚ) * stride) := by
      rw [getElem?_flatMap_const (List.range feat_h)
        (fun _ => (List.range feat_w).map (fun v : ℕ => (v : ℚ) * stride)) feat_w y x
        (by intro s _; simp) (by simpa using hy) hx]
      simp [List.getElem?_range hx]
    have hky : y < ((List.range feat_h).map (fun v : ℕ => (v : ℚ) * stride)).length := by
      simpa using hy
    have hyyget : (((List.range feat_h).map (fun v : ℕ => (v : ℚ) * stride)).flatMap
        (fun v => List.replicate feat_w v))[y * feat_w + x]?
          = some ((y : ℚ) * stride) := by
      rw [getElem?_flatMap_const
        ((List.range feat_h).map (fun v : ℕ => (v : ℚ) * stride))
        (fun v => List.replicate feat_w v) feat_w y x (by intro s _; simp) hky hx]
      rw [List.getElem?_replicate_of_lt hx]
      simp [List.getElem_range]
    have hzip : (((List.range feat_h).flatMap
          (fun _ => (List.range feat_w).map (fun v : ℕ => (v : ℚ) * stride))).zip
        (((List.range feat_h).map (fun v : ℕ => (v : ℚ) * stride)).flatMap
          (fun v => List.replicate feat_w v)))[y * feat_w + x]?
        = some ((x : ℚ) * stride, (y : ℚ) * stride) :=
      List.getElem?_zip_eq_some.2 ⟨hxxget, hyyget⟩
    have hlt : y * feat_w + x < feat_h * feat_w := by
      have h1 : (y + 1) * feat_w = y * feat_w + feat_w := by ring
      have h2 : (y + 1) * feat_w ≤ feat_h * feat_w := Nat.mul_le_mul_right _ hy
      omega
    have hk : y * feat_w + x < (((List.range feat_h).flatMap
          (fun _ => (List.range feat_w).map (fun v : ℕ => (v : ℚ) * stride))).zip
        (((List.range feat_h).map (fun v : ℕ => (v : ℚ) * stride)).flatMap
          (fun v => List.replicate feat_w v))).length := by
      rw [List.length_zip]
      rw [length_flatMap_const _ _ feat_w (by intro s _; simp),
        length_flatMap_const _ _ feat_w (by intro s _; simp)]
      simpa using hlt
    rw [getElem?_flatMap_const _
      (fun s => base_anchors.map (fun b =>
        (⟨b.x1 + s.1, b.y1 + s.2, b.x2 + s.1, b.y2 + s.2⟩ : Box)))
      base_anchors.length (y * feat_w + x) a (by intro s _; simp) hk ha]
    obtain ⟨hpf, heq⟩ := List.getElem?_eq_some_iff.1 hzip
    rw [show (((List.range feat_h).flatMap
          (fun _ => (List.range feat_w).map (fun v : ℕ => (v : ℚ) * stride))).zip
        (((List.range feat_h).map (fun v : ℕ => (v : ℚ) * stride)).flatMap
          (fun v => List.replicate feat_w v))).get ⟨y * feat_w + x, hk⟩
        = ((x : ℚ) * stride, (y : ℚ) * stride) from heq]
    simp [List.getElem?_eq_getElem ha, List.get_eq_getElem]

/-- Concrete base anchors for the C5 witness. -/
def cgBase : List Box := [⟨0, 0, 2, 2⟩, ⟨0, 0, 4, 4⟩]

/-- Witness for C5: at a 2 x 3 grid with stride 16, the anchor for grid cell
`(1, 2)` and base index 1 sits at flat index `(1*3+2)*2+1 = 11` and equals
base anchor 1 shifted by `(32, 16)`. -/
theorem anchor_generator_counts_witness :
    (AnchorGenerator.single_level_grid_anchors cgBase 2 3 16)[11]? =
      some ⟨32, 16, 36, 20⟩ := by
  have h := (anchor_generator_counts id true 0 16 [8] [1] none cgBase 2 3 16).2.2
    1 2 1 (by norm_num) (by norm_num) (by norm_num [cgBase])
  have hb : cgBase.get ⟨1, by norm_num [cgBase]⟩ = ⟨0, 0, 4, 4⟩ := rfl
  rw [hb] at h
  norm_num at h
  exact h

/-! ### Claim C6: construction-time validation -/

/-- C6 (amended): `AnchorGenerator` construction succeeds exactly when
`center_offset` lies in `[0, 1]`, exactly one of `scales` or the pair
`(octave_base_scale, scales_per_octave)` is given, `centers` is only
supplied together with `center_offset = 0`, an explicitly given `base_sizes`
matches `strides` in length, and any supplied `centers` list covers all
levels. -/
theorem anchor_generator_init_ok_iff (a : AnchorGeneratorArgs) :
    AnchorGenerator.initCheck a = .ok () ↔
      ((a.center_offset = 0 ∨ a.centers = none)
        ∧ (0 ≤ a.center_offset ∧ a.center_offset ≤ 1)
        ∧ (a.base_sizes.getD a.strides).length = a.strides.length
        ∧ ¬((a.octave_base_scale ≠ none ∧ a.scales_per_octave ≠ none) ↔ a.scales ≠ none)
        ∧ (∀ cs, a.centers = some cs →
            (a.base_sizes.getD a.strides).length ≤ cs.length)) := by
  cases hc : a.centers with
  | none =>
    simp only [AnchorGenerator.initCheck, AnchorGenerator.centersAccessOk, hc]
    split_ifs with h1 h2 h3 h4 h5 h6 <;> simp_all
  | some cs =>
    simp only [AnchorGenerator.initCheck, AnchorGenerator.centersAccessOk, hc]
    split_ifs with h1 h2 h3 h4 h5 h6 h7 h8 <;> simp_all

/-- Concrete invalid configuration for the C6 counterexample: valid
`center_offset = 1/2` and a valid scales-only choice, but with `centers`
also supplied. -/
def c6args : MMD.AnchorGeneratorArgs :=
  { strides := [16], ratios := [1], scales := some [8],
    centers := some [(1, 1)], center_offset := 1/2 }

/-- C6 counterexample: `c6args` satisfies both validity conditions the claim
lists (`center_offset` in `[0, 1]`, exactly one of `scales` / the octave
pair), yet construction raises, because `centers` may not be combined with a
nonzero `center_offset`; the claim's "raises exactly when" equivalence is
therefore false. -/
theorem anchor_generator_init_counterexample :
    AnchorGenerator.initCheck c6args ≠ .ok ()
    ∧ (0 ≤ c6args.center_offset ∧ c6args.center_offset ≤ 1)
    ∧ ¬((c6args.octave_base_scale ≠ none ∧ c6args.scales_per_octave ≠ none)
        ↔ c6args.scales ≠ none) := by
  refine ⟨?_, by norm_num [c6args], by simp [c6args]⟩
  intro h
  simp only [AnchorGenerator.initCheck, c6args] at h
  rw [if_pos ⟨by norm_num, by simp⟩] at h
  exact Except.noConfusion h

/-- Concrete valid configuration for the C6 witness. -/
def c6ok : MMD.AnchorGeneratorArgs := { strides := [16], ratios := [1], scales := some [8] }

/-- Witness for C6 (amended): the valid concrete configuration constructs
successfully. -/
theorem anchor_generator_init_ok_iff_witness :
    AnchorGenerator.initCheck c6ok = .ok () := by
  rw [anchor_generator_init_ok_iff c6ok]
  refine ⟨?_, ?_, ?_, ?_, ?_⟩ <;> simp [c6ok]

/-! ### DynamicRoIHead (mmdet/models/roi_heads/dynamic_roi_head.py) -/

/-- Embeds the mutable state of `DynamicRoIHead` that `update_statistics`
reads and writes: the window buffers `cur_iou` / `cur_beta`, the initial
conservative values set in `__init__` (`initial_iou = 0.4`,
`initial_beta = 1.0`), the three threshold fields of `bbox_assigner` and the
`beta` of the SmoothL1 regression loss. -/
structure DynamicRoIHead where
  iteration_count : ℕ
  initial_iou : ℚ
  initial_beta : ℚ
  cur_iou : List ℚ
  cur_beta : List ℚ
  pos_iou_thr : ℚ
  neg_iou_thr : ℚ
  min_pos_iou : ℚ
  loss_bbox_beta : ℚ
deriving Repr

namespace DynamicRoIHead

/-- Embeds `DynamicRoIHead.update_statistics` (lines 130-142): computes
`new_iou_thr = max(initial_iou, sum(cur_iou) / iteration_count)` and
`new_beta = min(initial_beta, sorted(cur_beta)[iteration_count // 2])`,
pushes them into the assigner/loss fields, clears both buffers, and returns
`(new_iou_thr, new_beta)` alongside the new state. -/
def update_statistics (s : DynamicRoIHead) : DynamicRoIHead × ℚ × ℚ :=
  let new_iou_thr := max s.initial_iou (s.cur_iou.sum / (s.iteration_count : ℚ))
  let new_beta := min s.initial_beta
    ((s.cur_beta.insertionSort (· ≤ ·)).getD (s.iteration_count / 2) 0)
  ({ s with
      cur_iou := []
      cur_beta := []
      pos_iou_thr := new_iou_thr
      neg_iou_thr := new_iou_thr
      min_pos_iou := new_iou_thr
      loss_bbox_beta := new_beta }, new_iou_thr, new_beta)

end DynamicRoIHead

/-! ### SOLOHead (mmdet/models/dense_heads/solo_head.py) -/

/-- Sum of all entries of a binary mask given as a list of rows. -/
def maskSum (mask : List (List ℕ)) : ℕ := (mask.map List.sum).sum

/-- Embeds `center_of_mass` (solo_head.py lines 14-21): the area-normalized
first moment of the binary mask, returned as `(center_h, center_w)`; the
normalizer is the mask sum clamped below by `1e-6` (the float literal
modelled as the exact rational; for the non-empty masks of the claims the
clamp is inert since the sum is at least 1). -/
def center_of_mass (mask : List (List ℕ)) : ℚ × ℚ :=
  let normalizer : ℚ := max (maskSum mask : ℚ) (1 / 1000000)
  let center_h : ℚ :=
    ((mask.enum.map (fun p => (p.1 : ℚ) * (p.2.sum : ℚ))).sum) / normalizer
  let center_w : ℚ :=
    ((mask.map (fun row => (row.enum.map (fun q => (q.1 : ℚ) * (q.2 : ℚ))).sum)).sum)
      / normalizer
  (center_h, center_w)

/-- One ground-truth instance consumed by the SOLO target encoder: box,
class label, binary mask. -/
structure SoloInst where
  bbox : Box
  label : ℤ
  mask : List (List ℕ)

/-- Static per-level inputs of the loop body of
`SOLOHead._get_targets_single`: the level's scale range, stride, feature-map
size, the level-0 feature-map size (`featmap_sizes[0]`, from which
`upsampled_size` is derived), grid size, `pos_scale` and `num_classes`. -/
structure SoloLevelCfg where
  lower_bound : ℚ
  upper_bound : ℚ
  stride : ℚ
  featmap_size : ℕ × ℕ
  featmap0_size : ℕ × ℕ
  num_grid : ℕ
  pos_scale : ℚ
  num_classes : ℕ

/-- Per-level target state: `labels` is the `num_grid x num_grid` class grid
(background = `num_classes`), `mask_target` maps each flattened grid index
to its binary mask canvas, `pos_mask` flags positive cells. -/
structure LevelTarget where
  labels : ℕ → ℕ → ℤ
  mask_target : ℕ → List (List ℕ)
  pos_mask : ℕ → Bool

/-- The all-background, all-zero, no-positive initial level target
(lines 313-323). -/
def initLevelTarget (cfg : SoloLevelCfg) : LevelTarget :=
  { labels := fun _ _ => (cfg.num_classes : ℤ)
    mask_target := fun _ =>
      List.replicate cfg.featmap_size.1 (List.replicate cfg.featmap_size.2 0)
    pos_mask := fun _ => false }

/-- Embeds `coord_h` / `coord_w` (lines 355-358): the grid cell of the mass
center; `int((c / upsampled) // (1 / num_grid))` is `⌊c / upsampled * num_grid⌋`. -/
def soloCoords (cfg : SoloLevelCfg) (inst : SoloInst) : ℤ × ℤ :=
  let c := center_of_mass inst.mask
  (⌊c.1 / ((cfg.featmap0_size.1 : ℚ) * 4) * cfg.num_grid⌋,
   ⌊c.2 / ((cfg.featmap0_size.2 : ℚ) * 4) * cfg.num_grid⌋)

/-- Embeds `top_box`, `down_box`, `left_box`, `right_box` (lines 360-376):
the scale-derived clip box of an instance, clamped to the grid. -/
def soloClipBox (cfg : SoloLevelCfg) (inst : SoloInst) : ℤ × ℤ × ℤ × ℤ :=
  let c := center_of_mass inst.mask
  let pos_h_range := 1/2 * (inst.bbox.y2 - inst.bbox.y1) * cfg.pos_scale
  let pos_w_range := 1/2 * (inst.bbox.x2 - inst.bbox.x1) * cfg.pos_scale
  let uh : ℚ := (cfg.featmap0_size.1 : ℚ) * 4
  let uw : ℚ := (cfg.featmap0_size.2 : ℚ) * 4
  (max 0 ⌊(c.1 - pos_h_range) / uh * cfg.num_grid⌋,
   min ((cfg.num_grid : ℤ) - 1) ⌊(c.1 + pos_h_range) / uh * cfg.num_grid⌋,
   max 0 ⌊(c.2 - pos_w_range) / uw * cfg.num_grid⌋,
   min ((cfg.num_grid : ℤ) - 1) ⌊(c.2 + pos_w_range) / uw * cfg.num_grid⌋)

/-- Embeds `top`, `down`, `left`, `right` (lines 378-381): the painted
region, the 3x3 neighbourhood of the mass-center cell intersected with the
clip box, as `(top, down, left, right)`. -/
def soloPaintRegion (cfg : SoloLevelCfg) (inst : SoloInst) : ℤ × ℤ × ℤ × ℤ :=
  (max (soloClipBox cfg inst).1 ((soloCoords cfg inst).1 - 1),
   min (soloClipBox cfg inst).2.1 ((soloCoords cfg inst).1 + 1),
   max ((soloCoords cfg inst).2 - 1) (soloClipBox cfg inst).2.2.1,
   min (soloClipBox cfg inst).2.2.2 ((soloCoords cfg inst).2 + 1))

/-- Membership of grid cell `(i, j)` in the painted region of an instance;
this is exactly the index set of the slice assignment
`labels[top:(down+1), left:(right+1)]` and of the double loop writing
`mask_target` and `pos_mask` (lines 383-394). -/
def soloInRegion (cfg : SoloLevelCfg) (inst : SoloInst) (i j : ℕ) : Prop :=
  (soloPaintRegion cfg inst).1 ≤ (i : ℤ)
  ∧ (i : ℤ) ≤ (soloPaintRegion cfg inst).2.1
  ∧ (soloPaintRegion cfg inst).2.2.1 ≤ (j : ℤ)
  ∧ (j : ℤ) ≤ (soloPaintRegion cfg inst).2.2.2

instance (cfg : SoloLevelCfg) (inst : SoloInst) (i j : ℕ) :
    Decidable (soloInRegion cfg inst i j) :=
  inferInstanceAs (Decidable ((soloPaintRegion cfg inst).1 ≤ (i : ℤ)
    ∧ (i : ℤ) ≤ (soloPaintRegion cfg inst).2.1
    ∧ (soloPaintRegion cfg inst).2.2.1 ≤ (j : ℤ)
    ∧ (j : ℤ) ≤ (soloPaintRegion cfg inst).2.2.2))

/-- Embeds the slice assignment `mask_target[index, :h, :w] = gt_mask`:
write `m` into the top-left corner of `canvas`; entries beyond the extent of
`m` keep the canvas's previous values. -/
def writeTopLeft (canvas m : List (List ℕ)) : List (List ℕ) :=
  canvas.enum.map (fun p =>
    match m[p.1]? with
    | some mrow => p.2.enum.map (fun q => (mrow[q.1]?).getD q.2)
    | none => p.2)

/-- Embeds one iteration of the per-instance loop of
`_get_targets_single` (lines 345-394): instances with an empty mask are
skipped (`valid_mask_flag`); otherwise the labels in the paint region are
set to the instance label, and for every region cell the rescaled mask is
written into that cell's canvas and the positive flag is set.  The flat
index of cell `(i, j)` is `i * num_grid + j`, recovered here as
`(idx / num_grid, idx % num_grid)`.  `imrescaleQ` abstracts
`mmcv.imrescale` (called with scale `1 / output_stride` where
`output_stride = stride / 2`); the claims constrain which cells are
painted, never the rescaled content. -/
def soloPaintOne (imrescaleQ : List (List ℕ) → ℚ → List (List ℕ))
    (cfg : SoloLevelCfg) (st : LevelTarget) (inst : SoloInst) : LevelTarget :=
  if maskSum inst.mask = 0 then st
  else
    { labels := fun i j =>
        if soloInRegion cfg inst i j then inst.label else st.labels i j
      mask_target := fun idx =>
        if soloInRegion cfg inst (idx / cfg.num_grid) (idx % cfg.num_grid) then
          writeTopLeft (st.mask_target idx) (imrescaleQ inst.mask (2 / cfg.stride))
        else st.mask_target idx
      pos_mask := fun idx =>
        if soloInRegion cfg inst (idx / cfg.num_grid) (idx % cfg.num_grid) then true
        else st.pos_mask idx }

/-- Embeds the level's ground-truth filter (lines 303-304 and 325-334):
instances whose `sqrt(area)` lies in `[lower_bound, upper_bound]`.
`sqrtQ` abstracts `torch.sqrt`. -/
def soloHit (sqrtQ : ℚ → ℚ) (cfg : SoloLevelCfg) (gts : List SoloInst) :
    List SoloInst :=
  gts.filter (fun inst =>
    decide (cfg.lower_bound ≤
        sqrtQ ((inst.bbox.x2 - inst.bbox.x1) * (inst.bbox.y2 - inst.bbox.y1))
      ∧ sqrtQ ((inst.bbox.x2 - inst.bbox.x1) * (inst.bbox.y2 - inst.bbox.y1))
        ≤ cfg.upper_bound))

/-- Embeds the per-level body of `SOLOHead._get_targets_single`
(lines 309-398): start from the all-background target and paint each
in-range instance in order. -/
def soloLevelTargets (sqrtQ : ℚ → ℚ)
    (imrescaleQ : List (List ℕ) → ℚ → List (List ℕ))
    (cfg : SoloLevelCfg) (gts : List SoloInst) : LevelTarget :=
  (soloHit sqrtQ cfg gts).foldl (soloPaintOne imrescaleQ cfg) (initLevelTarget cfg)

/-! ### Claim C7: SOLO target locality -/

/-- C7: in the per-level SOLO target encoder, with zero ground truths in the
level's scale range the label grid is entirely background, no grid cell is
positive and every mask canvas is all zeros; and a single in-range instance
with a non-empty mask produces positive (non-background) labels only inside
the 3x3 neighbourhood of its mass-center grid cell intersected with the
scale-derived clip box. -/
theorem solo_targets_single (sqrtQ : ℚ → ℚ)
    (imrescaleQ : List (List ℕ) → ℚ → List (List ℕ)) (cfg : SoloLevelCfg) :
    (∀ gts : List SoloInst, soloHit sqrtQ cfg gts = [] →
      (∀ i j, (soloLevelTargets sqrtQ imrescaleQ cfg gts).labels i j
          = (cfg.num_classes : ℤ))
      ∧ (∀ idx, (soloLevelTargets sqrtQ imrescaleQ cfg gts).pos_mask idx = false)
      ∧ (∀ idx, (soloLevelTargets sqrtQ imrescaleQ cfg gts).mask_target idx
          = List.replicate cfg.featmap_size.1 (List.replicate cfg.featmap_size.2 0)))
    ∧ (∀ inst : SoloInst, 0 < maskSum inst.mask → ∀ i j,
        (soloLevelTargets sqrtQ imrescaleQ cfg [inst]).labels i j
            ≠ (cfg.num_classes : ℤ) →
          ((soloCoords cfg inst).1 - 1 ≤ (i : ℤ)
            ∧ (i : ℤ) ≤ (soloCoords cfg inst).1 + 1
            ∧ (soloCoords cfg inst).2 - 1 ≤ (j : ℤ)
            ∧ (j : ℤ) ≤ (soloCoords cfg inst).2 + 1
            ∧ (soloClipBox cfg inst).1 ≤ (i : ℤ)
            ∧ (i : ℤ) ≤ (soloClipBox cfg inst).2.1
            ∧ (soloClipBox cfg inst).2.2.1 ≤ (j : ℤ)
            ∧ (j : ℤ) ≤ (soloClipBox cfg inst).2.2.2)) := by
  constructor
  · intro gts hf
    refine ⟨fun i j => ?_, fun idx => ?_, fun idx => ?_⟩ <;>
      simp [soloLevelTargets, hf, initLevelTarget]
  · intro inst hm i j hlab
    rw [soloLevelTargets] at hlab
    by_cases hp : cfg.lower_bound ≤
        sqrtQ ((inst.bbox.x2 - inst.bbox.x1) * (inst.bbox.y2 - inst.bbox.y1))
      ∧ sqrtQ ((inst.bbox.x2 - inst.bbox.x1) * (inst.bbox.y2 - inst.bbox.y1))
        ≤ cfg.upper_bound
    · have hh : soloHit sqrtQ cfg [inst] = [inst] := by
        simp [soloHit, hp.1, hp.2]
      rw [hh, List.foldl_cons, List.foldl_nil, soloPaintOne,
        if_neg (Nat.pos_iff_ne_zero.1 hm)] at hlab
      by_cases hin : soloInRegion cfg inst i j
      · obtain ⟨h1, h2, h3, h4⟩ := hin
        have e1 : (soloPaintRegion cfg inst).1
            = max (soloClipBox cfg inst).1 ((soloCoords cfg inst).1 - 1) := rfl
        have e2 : (soloPaintRegion cfg inst).2.1
            = min (soloClipBox cfg inst).2.1 ((soloCoords cfg inst).1 + 1) := rfl
        have e3 : (soloPaintRegion cfg inst).2.2.1
            = max ((soloCoords cfg inst).2 - 1) (soloClipBox cfg inst).2.2.1 := rfl
        have e4 : (soloPaintRegion cfg inst).2.2.2
            = min (soloClipBox cfg inst).2.2.2 ((soloCoords cfg inst).2 + 1) := rfl
        rw [e1] at h1
        rw [e2] at h2
        rw [e3] at h3
        rw [e4] at h4
        exact ⟨le_trans (le_max_right _ _) h1,
          le_trans h2 (min_le_right _ _),
          le_trans (le_max_left _ _) h3,
          le_trans h4 (min_le_right _ _),
          le_trans (le_max_left _ _) h1,
          le_trans h2 (min_le_left _ _),
          le_trans (le_max_right _ _) h3,
          le_trans h4 (min_le_left _ _)⟩
      · dsimp only at hlab
        rw [if_neg hin] at hlab
        simp [initLevelTarget] at hlab
    · have hh : soloHit sqrtQ cfg [inst] = [] := by
        simp only [soloHit, List.filter]
        rw [decide_eq_false hp]
      rw [hh, List.foldl_nil] at hlab
      simp [initLevelTarget] at hlab

/-- Concrete SOLO level configuration for the C7 witness: a 4 x 4 grid over
a 2 x 2 feature map (8 x 8 upsampled image), scale range `[0, 100]`,
`pos_scale = 1/5`, 3 classes. -/
def c7cfg : MMD.SoloLevelCfg :=
  { lower_bound := 0
    upper_bound := 100
    stride := 4
    featmap_size := (2, 2)
    featmap0_size := (2, 2)
    num_grid := 4
    pos_scale := 1/5
    num_classes := 3 }

/-- Concrete instance for the C7 witness: its mask's mass center is
`(1, 1)`, which lands in grid cell `(0, 0)`. -/
def c7inst : MMD.SoloInst :=
  { bbox := ⟨0, 0, 4, 4⟩
    label := 1
    mask := [[0, 0], [0, 1]] }

/-- Witness for C7 at the concrete input: grid cell `(3, 3)` lies outside
the 3x3 neighbourhood of the mass-center cell `(0, 0)`, so its label stays
background. -/
theorem solo_targets_single_witness :
    (soloLevelTargets id (fun m _ => m) c7cfg [c7inst]).labels 3 3
      = (c7cfg.num_classes : ℤ) := by
  by_contra h
  have h2 := (solo_targets_single id (fun m _ => m) c7cfg).2 c7inst (by decide) 3 3 h
  have hc : (soloCoords c7cfg c7inst).1 = 0 := by
    norm_num [soloCoords, center_of_mass, maskSum, c7cfg, c7inst, List.enum,
      List.enumFrom]
  have h3 := h2.2.1
  rw [hc] at h3
  norm_num at h3

/-- C2 (amended): when the window holds `iteration_count` samples,
`update_statistics` sets the assigner IoU threshold to
`max(initial_iou, mean(cur_iou))` — clamped to never fall below
`initial_iou` — and sets the SmoothL1 `beta` to
`min(initial_beta, sorted(cur_beta)[iteration_count // 2])` — a k-th order
statistic clamped to never exceed `initial_beta` — and clears both window
buffers. -/
theorem update_statistics_spec (s : DynamicRoIHead)
    (h1 : 0 < s.iteration_count)
    (h2 : s.cur_iou.length = s.iteration_count)
    (h3 : s.cur_beta.length = s.iteration_count) :
    (s.update_statistics).2.1
        = max s.initial_iou (s.cur_iou.sum / (s.cur_iou.length : ℚ))
    ∧ s.initial_iou ≤ (s.update_statistics).2.1
    ∧ (s.update_statistics).2.2
        = min s.initial_beta
            ((s.cur_beta.insertionSort (· ≤ ·)).getD (s.iteration_count / 2) 0)
    ∧ (s.update_statistics).2.2 ≤ s.initial_beta
    ∧ s.iteration_count / 2 < (s.cur_beta.insertionSort (· ≤ ·)).length
    ∧ (s.update_statistics).1.cur_iou = []
    ∧ (s.update_statistics).1.cur_beta = []
    ∧ (s.update_statistics).1.pos_iou_thr = (s.update_statistics).2.1
    ∧ (s.update_statistics).1.loss_bbox_beta = (s.update_statistics).2.2 := by
  refine ⟨by rw [h2]; rfl, ?_, rfl, ?_, ?_, rfl, rfl, rfl, rfl⟩
  · exact le_max_left _ _
  · exact min_le_left _ _
  · rw [List.length_insertionSort, h3]
    exact Nat.div_lt_self h1 one_lt_two

/-- Concrete `DynamicRoIHead` state whose beta window sits entirely below
`initial_beta`. -/
def c2state : MMD.DynamicRoIHead :=
  { iteration_count := 4
    initial_iou := 2/5
    initial_beta := 1
    cur_iou := [1/2, 1/2, 1/2, 1/2]
    cur_beta := [1/2, 1/2, 1/2, 1/2]
    pos_iou_thr := 2/5
    neg_iou_thr := 2/5
    min_pos_iou := 2/5
    loss_bbox_beta := 1 }

/-- C2 counterexample: with a full window of beta samples `1/2` and
`initial_beta = 1`, the applied beta is `1/2`, strictly below its initial
value — the beta update is clamped from above (`min`), not from below as
the claim states. -/
theorem update_statistics_beta_counterexample :
    (c2state.update_statistics).2.2 < c2state.initial_beta
    ∧ c2state.cur_beta.length = c2state.iteration_count := by
  constructor
  · norm_num [DynamicRoIHead.update_statistics, c2state, List.insertionSort,
      List.orderedInsert, min_def]
  · norm_num [c2state]

/-- Witness for C2 (amended) at the concrete state: the beta clamp engages
from above and the buffers are cleared. -/
theorem update_statistics_spec_witness :
    (c2state.update_statistics).2.2 ≤ c2state.initial_beta
    ∧ (c2state.update_statistics).1.cur_beta = []
    ∧ (c2state.update_statistics).1.cur_iou = [] := by
  have h := update_statistics_spec c2state (by norm_num [c2state])
    (by norm_num [c2state]) (by norm_num [c2state])
  exact ⟨h.2.2.2.1, h.2.2.2.2.2.2.1, h.2.2.2.2.2.1⟩

/-! ### Claim C10: all three assigner threshold fields get the same value -/

/-- C10: every `update_statistics` call writes the same newly computed
threshold into `pos_iou_thr`, `neg_iou_thr` and `min_pos_iou`, so after any
update the positive and negative thresholds are equal. -/
theorem update_statistics_threshold_fields (s : DynamicRoIHead) :
    (s.update_statistics).1.pos_iou_thr = (s.update_statistics).2.1
    ∧ (s.update_statistics).1.neg_iou_thr = (s.update_statistics).2.1
    ∧ (s.update_statistics).1.min_pos_iou = (s.update_statistics).2.1
    ∧ (s.update_statistics).1.pos_iou_thr = (s.update_statistics).1.neg_iou_thr :=
  ⟨rfl, rfl, rfl, rfl⟩

end MMD
